import Mathlib

/-
Verification of the backend supervisor and event relay implemented in
src/src-tauri/src/lib.rs.

The supervisor (`start_backend` / `stop_backend`) guards a lock-protected
`BackendState { process: Option<JoinHandle<()>> }`.  The relay is the async
task spawned by `start_backend`: a `while let Some(event) = rx.recv().await`
loop matching on `CommandEvent`.

Modelling choices:
- A `JoinHandle` is modelled by a numeric task id; `SupervisorWorld` carries,
  besides the `BackendState` cell, the mutex poison flag, a counter of spawns
  performed so far (`nextId`, which also serves as the id of the next spawned
  task) and the list of task ids that have been spawned and not yet aborted
  (`activeTasks`).
- The fallible environment steps of `start_backend` (sidecar resolution and
  child-process spawn) are inputs `SidecarOutcome` / `SpawnOutcome`.
- The relay loop is a function over the finite list of events delivered on the
  channel before it closes; `app.emit(..).ok()` is modelled by an oracle
  `deliver : Nat -> Bool` giving the success of the k-th emission, whose value
  is recorded in the `delivered` field of the attempt and then discarded by the
  relay, exactly as `.ok()` discards the `Result`.
- `String::from_utf8_lossy` is modelled byte for byte (maximal-subpart
  substitution with U+FFFD, as in Rust's core library).
-/

/-- Unicode replacement character U+FFFD, substituted by `from_utf8_lossy`
for each maximal invalid subpart of the input. -/
def replacementChar : Char := Char.ofNat 0xFFFD

/-- Check for a UTF-8 continuation byte (0x80..=0xBF). -/
def isCont (b : Nat) : Bool := 0x80 ≤ b && b ≤ 0xBF

/-- Valid range of the first continuation byte of a three-byte sequence,
which depends on the leading byte (E0 excludes overlongs, ED surrogates). -/
def cont1Ok3 (b b1 : Nat) : Bool :=
  if b = 0xE0 then 0xA0 ≤ b1 && b1 ≤ 0xBF
  else if b = 0xED then 0x80 ≤ b1 && b1 ≤ 0x9F
  else isCont b1

/-- Valid range of the first continuation byte of a four-byte sequence,
which depends on the leading byte (F0 excludes overlongs, F4 caps at
U+10FFFF). -/
def cont1Ok4 (b b1 : Nat) : Bool :=
  if b = 0xF0 then 0x90 ≤ b1 && b1 ≤ 0xBF
  else if b = 0xF4 then 0x80 ≤ b1 && b1 ≤ 0x8F
  else isCont b1

/-- Lossy UTF-8 decoding of a byte list, following Rust's
`String::from_utf8_lossy`: each maximal valid prefix of a multibyte sequence
that fails to complete contributes one U+FFFD and decoding resumes at the
offending byte; a lone invalid byte contributes one U+FFFD. -/
def utf8LossyChars : List Nat → List Char
  | [] => []
  | b :: rest =>
    if b < 0x80 then
      Char.ofNat b :: utf8LossyChars rest
    else if b < 0xC2 then
      replacementChar :: utf8LossyChars rest
    else if b ≤ 0xDF then
      match rest with
      | [] => [replacementChar]
      | b1 :: rest1 =>
        if isCont b1 then
          Char.ofNat ((b - 0xC0) * 0x40 + (b1 - 0x80)) :: utf8LossyChars rest1
        else
          replacementChar :: utf8LossyChars (b1 :: rest1)
    else if b ≤ 0xEF then
      match rest with
      | [] => [replacementChar]
      | b1 :: rest1 =>
        if cont1Ok3 b b1 then
          match rest1 with
          | [] => [replacementChar]
          | b2 :: rest2 =>
            if isCont b2 then
              Char.ofNat ((b - 0xE0) * 0x1000 + (b1 - 0x80) * 0x40 + (b2 - 0x80)) ::
                utf8LossyChars rest2
            else
              replacementChar :: utf8LossyChars (b2 :: rest2)
        else
          replacementChar :: utf8LossyChars (b1 :: rest1)
    else if b ≤ 0xF4 then
      match rest with
      | [] => [replacementChar]
      | b1 :: rest1 =>
        if cont1Ok4 b b1 then
          match rest1 with
          | [] => [replacementChar]
          | b2 :: rest2 =>
            if isCont b2 then
              match rest2 with
              | [] => [replacementChar]
              | b3 :: rest3 =>
                if isCont b3 then
                  Char.ofNat ((b - 0xF0) * 0x40000 + (b1 - 0x80) * 0x1000 +
                      (b2 - 0x80) * 0x40 + (b3 - 0x80)) :: utf8LossyChars rest3
                else
                  replacementChar :: utf8LossyChars (b3 :: rest3)
            else
              replacementChar :: utf8LossyChars (b2 :: rest2)
        else
          replacementChar :: utf8LossyChars (b1 :: rest1)
    else
      replacementChar :: utf8LossyChars rest

/-- Model of `String::from_utf8_lossy(&line)` as used on both the stdout and
the stderr arms of the relay loop. Total: every byte list decodes to a
string, invalid sequences are replaced, never rejected. -/
def from_utf8_lossy (bytes : List Nat) : String :=
  String.mk (utf8LossyChars bytes)

/-- Payload of `CommandEvent::Terminated` (tauri_plugin_shell
`TerminatedPayload`): exit code and signal, each optional. -/
structure TerminatedPayload where
  code : Option Int
  signal : Option Int
deriving DecidableEq

/-- Rust `Debug` rendering of `Option<i32>`. -/
def optionIntDebug : Option Int → String
  | none => "None"
  | some n => "Some(" ++ toString n ++ ")"

/-- Rust `Debug` rendering of `TerminatedPayload`, as printed by the
`println!("Backend terminated with status: \x7b:?\x7d", status)` line. -/
def terminatedPayloadDebug (s : TerminatedPayload) : String :=
  "TerminatedPayload \x7b code: " ++ optionIntDebug s.code ++
    ", signal: " ++ optionIntDebug s.signal ++ " \x7d"

/-- Model of `tauri_plugin_shell::process::CommandEvent`. `Other` stands for
any event variant matched by the catch-all `_ => \x7b\x7d` arm of the relay
loop. Stdout/Stderr lines are raw bytes (`Vec<u8>`). -/
inductive CommandEvent where
  | Stdout (line : List Nat)
  | Stderr (line : List Nat)
  | Error (err : String)
  | Terminated (status : TerminatedPayload)
  | Other
deriving DecidableEq

/-- Discriminator for the `Terminated` variant. -/
def CommandEvent.isTerm : CommandEvent → Bool
  | CommandEvent.Terminated _ => true
  | _ => false

/-- Payload of an outbound notification: `backend-error` carries a string,
`backend-terminated` carries the exit status. -/
inductive Payload where
  | str (s : String)
  | status (t : TerminatedPayload)
deriving DecidableEq

/-- One call of `app_clone.emit(name, payload).ok()`: the notification name,
its payload, and whether delivery succeeded. The relay discards the
`delivered` flag, exactly as `.ok()` discards the `Result`. -/
structure EmitAttempt where
  name : String
  payload : Payload
  delivered : Bool
deriving DecidableEq

/-- Projection of an emission attempt to the data the relay actually
determines: name and payload, without the delivery outcome. -/
def EmitAttempt.strip (a : EmitAttempt) : String × Payload := (a.name, a.payload)

/-- State of the relay loop: `Listening` while the `while let` loop keeps
receiving, `Done` after `break` or channel closure. -/
inductive RelayState where
  | Listening
  | Done
deriving DecidableEq

/-- Effect of processing one event in the relay loop: either the loop keeps
listening or it ends, in both cases with the log lines printed and the
notification attempts made for that event. -/
inductive StepResult where
  | listen (logs : List String) (emits : List EmitAttempt)
  | done (logs : List String) (emits : List EmitAttempt)
deriving DecidableEq

/-- True when the step leaves the relay in the `Listening` state. -/
def StepResult.isListen : StepResult → Bool
  | StepResult.listen _ _ => true
  | StepResult.done _ _ => false

/-- One iteration of the relay loop's `match event`: `d` is the delivery
outcome of the notification this step may attempt. Stdout/Stderr log the
lossily decoded line and keep listening; Error logs and emits
`backend-error`, keeps listening; Terminated logs, emits
`backend-terminated` and breaks; any other variant does nothing. -/
def relayStep (d : Bool) : CommandEvent → StepResult
  | CommandEvent.Stdout line =>
    StepResult.listen ["Backend stdout: " ++ from_utf8_lossy line] []
  | CommandEvent.Stderr line =>
    StepResult.listen ["Backend stderr: " ++ from_utf8_lossy line] []
  | CommandEvent.Error err =>
    StepResult.listen ["Backend error: " ++ err]
      [⟨"backend-error", Payload.str err, d⟩]
  | CommandEvent.Terminated status =>
    StepResult.done ["Backend terminated with status: " ++ terminatedPayloadDebug status]
      [⟨"backend-terminated", Payload.status status, d⟩]
  | CommandEvent.Other => StepResult.listen [] []

/-- Cumulative result of running the relay loop over a finite event stream:
every log line printed, every emission attempted (in order), and the state
in which the loop ended (`Done` both after `break` and after the channel
closes). -/
structure RelayOutput where
  logs : List String
  emits : List EmitAttempt
  final : RelayState
deriving DecidableEq

/-- The relay loop `while let Some(event) = rx.recv().await` over the list
of events delivered before the channel closes. `deliver k` is the success
of the k-th emission attempt; its value is recorded and otherwise ignored. -/
def relayRun (deliver : Nat → Bool) (k : Nat) : List CommandEvent → RelayOutput
  | [] => ⟨[], [], RelayState.Done⟩
  | CommandEvent.Stdout line :: rest =>
    let out := relayRun deliver k rest
    ⟨("Backend stdout: " ++ from_utf8_lossy line) :: out.logs, out.emits, out.final⟩
  | CommandEvent.Stderr line :: rest =>
    let out := relayRun deliver k rest
    ⟨("Backend stderr: " ++ from_utf8_lossy line) :: out.logs, out.emits, out.final⟩
  | CommandEvent.Error err :: rest =>
    let out := relayRun deliver (k + 1) rest
    ⟨("Backend error: " ++ err) :: out.logs,
     ⟨"backend-error", Payload.str err, deliver k⟩ :: out.emits, out.final⟩
  | CommandEvent.Terminated status :: _ =>
    ⟨["Backend terminated with status: " ++ terminatedPayloadDebug status],
     [⟨"backend-terminated", Payload.status status, deliver k⟩], RelayState.Done⟩
  | CommandEvent.Other :: rest => relayRun deliver k rest

/-- Number of emission attempts in a list that carry a given notification
name. -/
def countName (n : String) : List EmitAttempt → Nat
  | [] => 0
  | a :: l => (if a.name = n then 1 else 0) + countName n l

/-- The lock-protected supervisor cell `BackendState \x7b process:
Option<JoinHandle<()>> \x7d`, with the handle modelled by its task id. -/
structure BackendState where
  process : Option Nat
deriving DecidableEq

/-- Supervisor world: the `BackendState` cell, the mutex poison flag, the
number of spawns performed so far (doubling as the next task id), and the
ids of relay tasks spawned and not yet aborted. -/
structure SupervisorWorld where
  state : BackendState
  poisoned : Bool
  nextId : Nat
  activeTasks : List Nat
deriving DecidableEq

/-- Message of `e.to_string()` for a poisoned `std::sync::Mutex`. -/
def poisonMsg : String := "poisoned lock: another task failed inside"

/-- Outcome of `app.shell().sidecar("notelens-backend")`. -/
inductive SidecarOutcome where
  | ok
  | err (msg : String)
deriving DecidableEq

/-- Outcome of `command.spawn()`. -/
inductive SpawnOutcome where
  | ok
  | err (msg : String)
deriving DecidableEq

/-- Model of the `start_backend` command: lock the state (fails with the
poison message if poisoned), return early with success if a handle is
present, otherwise resolve the sidecar, spawn the child, spawn the relay
task and store its handle. -/
def start_backend (sc : SidecarOutcome) (sp : SpawnOutcome) (w : SupervisorWorld) :
    Except String String × SupervisorWorld :=
  if w.poisoned then (Except.error poisonMsg, w)
  else if w.state.process.isSome then (Except.ok "Backend already running", w)
  else
    match sc with
    | SidecarOutcome.ok =>
      match sp with
      | SpawnOutcome.ok =>
        (Except.ok "Backend started successfully",
         ⟨⟨some w.nextId⟩, w.poisoned, w.nextId + 1, w.activeTasks ++ [w.nextId]⟩)
      | SpawnOutcome.err e =>
        (Except.error ("Failed to spawn backend process: " ++ e), w)
    | SidecarOutcome.err e =>
      (Except.error ("Failed to create backend command: " ++ e), w)

/-- Model of the `stop_backend` command: lock the state (fails with the
poison message if poisoned); if a handle is present, take it out of the
state and abort the task, else report that the backend is not running. -/
def stop_backend (w : SupervisorWorld) : Except String String × SupervisorWorld :=
  if w.poisoned then (Except.error poisonMsg, w)
  else
    match w.state.process with
    | some id =>
      (Except.ok "Backend stopped",
       ⟨⟨none⟩, w.poisoned, w.nextId, w.activeTasks.erase id⟩)
    | none => (Except.ok "Backend not running", w)

/-- An operation on the supervisor world: a `start_backend` call (with the
outcomes of its two fallible environment steps), a `stop_backend` call, or
a spawned relay task running to completion. -/
inductive SysOp where
  | start (sc : SidecarOutcome) (sp : SpawnOutcome)
  | stop
  | relayDone
deriving DecidableEq

/-- State effect of one operation. A relay task completing changes nothing:
the closure spawned in `start_backend` captures only the cloned app handle
and the event receiver and never touches `BackendState`. -/
def applyOp (w : SupervisorWorld) : SysOp → SupervisorWorld
  | SysOp.start sc sp => (start_backend sc sp w).2
  | SysOp.stop => (stop_backend w).2
  | SysOp.relayDone => w

/-- Initial world: the state managed at startup in `run()` has
`process: None`, the mutex is fresh, nothing has been spawned. -/
def initWorld : SupervisorWorld := ⟨⟨none⟩, false, 0, []⟩

/-- Run a sequence of operations from a world. -/
def runOps (w : SupervisorWorld) : List SysOp → SupervisorWorld
  | [] => w
  | op :: ops => runOps (applyOp w op) ops

/-- Worlds the program can actually be in: those produced from the initial
world by some sequence of operations. -/
def Reachable (w : SupervisorWorld) : Prop :=
  ∃ ops, runOps initWorld ops = w

/-- Inductive invariant of the supervisor: the lock is never poisoned (no
code path panics while holding it), and the spawned-but-not-aborted tasks
are exactly the content of the handle cell. -/
def SupInv (w : SupervisorWorld) : Prop :=
  w.poisoned = false ∧
  (w.state.process = none → w.activeTasks = []) ∧
  (∀ id, w.state.process = some id → w.activeTasks = [id])

/-- Unfolding: the relay on an empty stream ends immediately. -/
theorem relayRun_nil (d : Nat → Bool) (k : Nat) :
    relayRun d k [] = ⟨[], [], RelayState.Done⟩ := rfl

/-- Unfolding: a stdout line is logged lossily and the loop continues. -/
theorem relayRun_stdout (d : Nat → Bool) (k : Nat) (line : List Nat)
    (rest : List CommandEvent) :
    relayRun d k (CommandEvent.Stdout line :: rest) =
      ⟨("Backend stdout: " ++ from_utf8_lossy line) :: (relayRun d k rest).logs,
       (relayRun d k rest).emits, (relayRun d k rest).final⟩ := rfl

/-- Unfolding: a stderr line is logged lossily and the loop continues. -/
theorem relayRun_stderr (d : Nat → Bool) (k : Nat) (line : List Nat)
    (rest : List CommandEvent) :
    relayRun d k (CommandEvent.Stderr line :: rest) =
      ⟨("Backend stderr: " ++ from_utf8_lossy line) :: (relayRun d k rest).logs,
       (relayRun d k rest).emits, (relayRun d k rest).final⟩ := rfl

/-- Unfolding: an error event is logged, one backend-error emission is
attempted, and the loop continues. -/
theorem relayRun_error (d : Nat → Bool) (k : Nat) (err : String)
    (rest : List CommandEvent) :
    relayRun d k (CommandEvent.Error err :: rest) =
      ⟨("Backend error: " ++ err) :: (relayRun d (k + 1) rest).logs,
       ⟨"backend-error", Payload.str err, d k⟩ :: (relayRun d (k + 1) rest).emits,
       (relayRun d (k + 1) rest).final⟩ := rfl

/-- Unfolding: a terminated event is logged, one backend-terminated emission
is attempted, and the loop breaks, whatever events follow. -/
theorem relayRun_term (d : Nat → Bool) (k : Nat) (status : TerminatedPayload)
    (rest : List CommandEvent) :
    relayRun d k (CommandEvent.Terminated status :: rest) =
      ⟨["Backend terminated with status: " ++ terminatedPayloadDebug status],
       [⟨"backend-terminated", Payload.status status, d k⟩], RelayState.Done⟩ := rfl

/-- Unfolding: an event hit by the catch-all arm changes nothing. -/
theorem relayRun_other (d : Nat → Bool) (k : Nat) (rest : List CommandEvent) :
    relayRun d k (CommandEvent.Other :: rest) = relayRun d k rest := rfl

/-- The relay loop agrees with the per-event step function. -/
theorem relayRun_cons_step (d : Nat → Bool) (k : Nat) (e : CommandEvent)
    (rest : List CommandEvent) :
    relayRun d k (e :: rest) =
      match relayStep (d k) e with
      | StepResult.listen ls es =>
        ⟨ls ++ (relayRun d (k + es.length) rest).logs,
         es ++ (relayRun d (k + es.length) rest).emits,
         (relayRun d (k + es.length) rest).final⟩
      | StepResult.done ls es => ⟨ls, es, RelayState.Done⟩ := by
  cases e <;> rfl

/-- The supervisor invariant holds at startup. -/
theorem supInv_init : SupInv initWorld := by
  refine ⟨rfl, fun _ => rfl, fun id h => by cases h⟩

/-- Every operation preserves the supervisor invariant. -/
theorem supInv_applyOp (w : SupervisorWorld) (op : SysOp) (h : SupInv w) :
    SupInv (applyOp w op) := by
  obtain ⟨hp, hn, hs⟩ := h
  cases op with
  | relayDone => exact ⟨hp, hn, hs⟩
  | stop =>
    cases hproc : w.state.process with
    | none =>
      simpa [applyOp, stop_backend, hp, hproc] using ⟨hp, hn, hs⟩
    | some id =>
      refine ⟨?_, ?_, ?_⟩ <;> simp [applyOp, stop_backend, hp, hproc, hs id hproc]
  | start sc sp =>
    cases hproc : w.state.process with
    | some id =>
      simpa [applyOp, start_backend, hp, hproc] using ⟨hp, hn, hs⟩
    | none =>
      cases sc with
      | err e => simpa [applyOp, start_backend, hp, hproc] using ⟨hp, hn, hs⟩
      | ok =>
        cases sp with
        | err e => simpa [applyOp, start_backend, hp, hproc] using ⟨hp, hn, hs⟩
        | ok =>
          refine ⟨?_, ?_, ?_⟩ <;>
            simp [applyOp, start_backend, hp, hproc, hn hproc]

/-- Running any operation sequence preserves the supervisor invariant. -/
theorem supInv_runOps (ops : List SysOp) :
    ∀ w : SupervisorWorld, SupInv w → SupInv (runOps w ops) := by
  induction ops with
  | nil => exact fun w h => h
  | cons op ops ih => exact fun w h => ih (applyOp w op) (supInv_applyOp w op h)

/-- Every reachable world satisfies the supervisor invariant. -/
theorem reachable_supInv (w : SupervisorWorld) (h : Reachable w) : SupInv w := by
  obtain ⟨ops, rfl⟩ := h
  exact supInv_runOps ops initWorld supInv_init

/-- C1: the supervisor holds at most one active backend handle at any time:
start_backend spawns and stores a handle only when the optional handle is
empty, stop_backend is the only operation that removes it, and no reachable
sequence of operations ever produces a second concurrent task or replaces
an existing handle (start_backend with a handle present leaves the whole
world unchanged). -/
theorem supervisor_single_handle (w : SupervisorWorld) (h : Reachable w) :
    w.activeTasks.length ≤ 1 ∧
    (w.state.process = none → w.activeTasks = []) ∧
    (∀ id, w.state.process = some id → w.activeTasks = [id]) ∧
    (∀ sc sp id, w.state.process = some id → (start_backend sc sp w).2 = w) := by
  obtain ⟨hp, hn, hs⟩ := reachable_supInv w h
  refine ⟨?_, hn, hs, ?_⟩
  · cases hproc : w.state.process with
    | none => simp [hn hproc]
    | some id => simp [hs id hproc]
  · intro sc sp id hid
    simp [start_backend, hp, hid]

/-- Witness for C1 at the world reached by one successful start. -/
theorem supervisor_single_handle_witness :
    (⟨⟨some 0⟩, false, 1, [0]⟩ : SupervisorWorld).activeTasks.length ≤ 1 ∧
    (start_backend SidecarOutcome.ok SpawnOutcome.ok ⟨⟨some 0⟩, false, 1, [0]⟩).2 =
      (⟨⟨some 0⟩, false, 1, [0]⟩ : SupervisorWorld) := by
  have h := supervisor_single_handle ⟨⟨some 0⟩, false, 1, [0]⟩
    ⟨[SysOp.start SidecarOutcome.ok SpawnOutcome.ok], rfl⟩
  exact ⟨h.1, h.2.2.2 SidecarOutcome.ok SpawnOutcome.ok 0 rfl⟩

/-- C2: in every reachable world whose handle cell is occupied, start_backend
returns success with exactly the message "Backend already running", spawns
nothing (the world, including the spawn counter, is unchanged) whatever the
sidecar and spawn outcomes would have been. -/
theorem start_already_running (w : SupervisorWorld) (h : Reachable w) (id : Nat)
    (hid : w.state.process = some id) (sc : SidecarOutcome) (sp : SpawnOutcome) :
    start_backend sc sp w = (Except.ok "Backend already running", w) := by
  obtain ⟨hp, -, -⟩ := reachable_supInv w h
  simp [start_backend, hp, hid]

/-- Witness for C2 at the world reached by one successful start. -/
theorem start_already_running_witness :
    start_backend SidecarOutcome.ok SpawnOutcome.ok ⟨⟨some 0⟩, false, 1, [0]⟩ =
      (Except.ok "Backend already running", ⟨⟨some 0⟩, false, 1, [0]⟩) :=
  start_already_running ⟨⟨some 0⟩, false, 1, [0]⟩
    ⟨[SysOp.start SidecarOutcome.ok SpawnOutcome.ok], rfl⟩ 0 rfl
    SidecarOutcome.ok SpawnOutcome.ok

/-- C3: when start_backend reaches the spawn path (lock healthy, no handle
stored) and sidecar resolution or the process spawn fails, it returns a
failure result carrying the descriptive message and the world is exactly as
before the call: no handle stored, no task spawned, nothing changed. -/
theorem start_failure_atomic (w : SupervisorWorld) (hp : w.poisoned = false)
    (hn : w.state.process = none) (e : String) :
    (∀ sp, start_backend (SidecarOutcome.err e) sp w =
      (Except.error ("Failed to create backend command: " ++ e), w)) ∧
    start_backend SidecarOutcome.ok (SpawnOutcome.err e) w =
      (Except.error ("Failed to spawn backend process: " ++ e), w) := by
  constructor
  · intro sp; simp [start_backend, hp, hn]
  · simp [start_backend, hp, hn]

/-- Witness for C3 at the initial world with a concrete error message. -/
theorem start_failure_atomic_witness :
    start_backend (SidecarOutcome.err "exe missing") SpawnOutcome.ok initWorld =
      (Except.error ("Failed to create backend command: " ++ "exe missing"), initWorld) ∧
    start_backend SidecarOutcome.ok (SpawnOutcome.err "exe missing") initWorld =
      (Except.error ("Failed to spawn backend process: " ++ "exe missing"), initWorld) := by
  have h := start_failure_atomic initWorld rfl rfl "exe missing"
  exact ⟨h.1 SpawnOutcome.ok, h.2⟩

/-- C4: in every reachable world stop_backend returns a success, never an
error: with a handle present it removes the handle, aborts the relay task
and returns "Backend stopped"; with no handle it returns "Backend not
running"; and a second stop immediately after a first one returns "Backend
not running" as a success. -/
theorem stop_total_success (w : SupervisorWorld) (h : Reachable w) :
    (∃ m, (stop_backend w).1 = Except.ok m) ∧
    (∀ id, w.state.process = some id →
      stop_backend w =
        (Except.ok "Backend stopped",
         ⟨⟨none⟩, w.poisoned, w.nextId, w.activeTasks.erase id⟩)) ∧
    (w.state.process = none →
      stop_backend w = (Except.ok "Backend not running", w)) ∧
    (stop_backend (stop_backend w).2).1 = Except.ok "Backend not running" := by
  obtain ⟨hp, hn, hs⟩ := reachable_supInv w h
  have h2 : ∀ id, w.state.process = some id →
      stop_backend w =
        (Except.ok "Backend stopped",
         ⟨⟨none⟩, w.poisoned, w.nextId, w.activeTasks.erase id⟩) := by
    intro id hid
    simp [stop_backend, hp, hid]
  have h3 : w.state.process = none →
      stop_backend w = (Except.ok "Backend not running", w) := by
    intro hnone
    simp [stop_backend, hp, hnone]
  refine ⟨?_, h2, h3, ?_⟩
  · cases hproc : w.state.process with
    | none => exact ⟨"Backend not running", by rw [h3 hproc]⟩
    | some id => exact ⟨"Backend stopped", by rw [h2 id hproc]⟩
  · cases hproc : w.state.process with
    | none =>
      rw [h3 hproc]
      simp [stop_backend, hp, hproc]
    | some id =>
      rw [h2 id hproc]
      simp [stop_backend, hp]

/-- Witness for C4 at the world reached by one successful start. -/
theorem stop_total_success_witness :
    stop_backend ⟨⟨some 0⟩, false, 1, [0]⟩ =
      (Except.ok "Backend stopped", ⟨⟨none⟩, false, 1, []⟩) ∧
    (stop_backend (stop_backend ⟨⟨some 0⟩, false, 1, [0]⟩).2).1 =
      Except.ok "Backend not running" := by
  have h := stop_total_success ⟨⟨some 0⟩, false, 1, [0]⟩
    ⟨[SysOp.start SidecarOutcome.ok SpawnOutcome.ok], rfl⟩
  exact ⟨h.2.1 0 rfl, h.2.2.2⟩

/-- C5: for every event stream, a Terminated event causes exactly one
backend-terminated emission carrying the exit status, and the relay
processes nothing after it: the run is identical whatever events follow the
Terminated one, it ends in Done, and among the emissions exactly the last
one is named backend-terminated. -/
theorem terminated_ends_relay (d : Nat → Bool) (pre : List CommandEvent)
    (s : TerminatedPayload) (suffix : List CommandEvent)
    (h : ∀ e ∈ pre, e.isTerm = false) :
    ∀ k : Nat,
    relayRun d k (pre ++ CommandEvent.Terminated s :: suffix) =
      relayRun d k (pre ++ [CommandEvent.Terminated s]) ∧
    (relayRun d k (pre ++ CommandEvent.Terminated s :: suffix)).final =
      RelayState.Done ∧
    ∃ l b, (relayRun d k (pre ++ CommandEvent.Terminated s :: suffix)).emits =
        l ++ [⟨"backend-terminated", Payload.status s, b⟩] ∧
      countName "backend-terminated" l = 0 := by
  revert h
  induction pre with
  | nil =>
    intro h k
    exact ⟨rfl, rfl, [], d k, rfl, rfl⟩
  | cons e pre ih =>
    intro h k
    have he : e.isTerm = false := h e (List.mem_cons_self e pre)
    have hpre : ∀ x ∈ pre, x.isTerm = false := fun x hx => h x (List.mem_cons_of_mem e hx)
    cases e with
    | Terminated st => simp [CommandEvent.isTerm] at he
    | Stdout line =>
      obtain ⟨ih1, ih2, l, b, ih3, ih4⟩ := ih hpre k
      refine ⟨?_, ?_, l, b, ?_, ih4⟩
      · simp [relayRun_stdout, ih1]
      · simp [relayRun_stdout, ih2]
      · simp [relayRun_stdout, ih3]
    | Stderr line =>
      obtain ⟨ih1, ih2, l, b, ih3, ih4⟩ := ih hpre k
      refine ⟨?_, ?_, l, b, ?_, ih4⟩
      · simp [relayRun_stderr, ih1]
      · simp [relayRun_stderr, ih2]
      · simp [relayRun_stderr, ih3]
    | Other =>
      obtain ⟨ih1, ih2, l, b, ih3, ih4⟩ := ih hpre k
      refine ⟨?_, ?_, l, b, ?_, ih4⟩
      · simp [relayRun_other, ih1]
      · simp [relayRun_other, ih2]
      · simp [relayRun_other, ih3]
    | Error err =>
      obtain ⟨ih1, ih2, l, b, ih3, ih4⟩ := ih hpre (k + 1)
      refine ⟨?_, ?_, ⟨"backend-error", Payload.str err, d k⟩ :: l, b, ?_, ?_⟩
      · simp [relayRun_error, ih1]
      · simp [relayRun_error, ih2]
      · simp [relayRun_error, ih3]
      · simp [countName, ih4]

/-- Witness for C5 on a concrete stream with an error before termination and
a stdout line after it. -/
theorem terminated_ends_relay_witness :
    relayRun (fun _ => true) 0
        ([CommandEvent.Error "boom"] ++ CommandEvent.Terminated ⟨some 0, none⟩ ::
          [CommandEvent.Stdout [104]]) =
      relayRun (fun _ => true) 0
        ([CommandEvent.Error "boom"] ++ [CommandEvent.Terminated ⟨some 0, none⟩]) ∧
    (relayRun (fun _ => true) 0
        ([CommandEvent.Error "boom"] ++ CommandEvent.Terminated ⟨some 0, none⟩ ::
          [CommandEvent.Stdout [104]])).final = RelayState.Done := by
  have h := terminated_ends_relay (fun _ => true) [CommandEvent.Error "boom"]
    ⟨some 0, none⟩ [CommandEvent.Stdout [104]] (by decide) 0
  exact ⟨h.1, h.2.1⟩

/-- C6: an Error event produces exactly one backend-error emission whose
payload is the original message verbatim, the step leaves the relay
Listening, and the loop goes on to process the remaining events. -/
theorem error_event_verbatim (b : Bool) (d : Nat → Bool) (k : Nat) (err : String)
    (rest : List CommandEvent) :
    relayStep b (CommandEvent.Error err) =
      StepResult.listen ["Backend error: " ++ err]
        [⟨"backend-error", Payload.str err, b⟩] ∧
    relayRun d k (CommandEvent.Error err :: rest) =
      ⟨("Backend error: " ++ err) :: (relayRun d (k + 1) rest).logs,
       ⟨"backend-error", Payload.str err, d k⟩ :: (relayRun d (k + 1) rest).emits,
       (relayRun d (k + 1) rest).final⟩ := ⟨rfl, rfl⟩

/-- C7: every byte sequence delivered as a stdout or stderr line, valid
UTF-8 or not, is decoded totally and lossily (invalid bytes become U+FFFD,
never a rejection), the decoded line is logged, no notification is emitted
and the relay keeps listening; a concrete invalid byte 0xFF decodes to the
replacement character while valid bytes decode verbatim. -/
theorem output_lines_lossy (b : Bool) (bytes : List Nat) :
    relayStep b (CommandEvent.Stdout bytes) =
      StepResult.listen ["Backend stdout: " ++ from_utf8_lossy bytes] [] ∧
    relayStep b (CommandEvent.Stderr bytes) =
      StepResult.listen ["Backend stderr: " ++ from_utf8_lossy bytes] [] ∧
    from_utf8_lossy [0xFF, 0x41] = String.mk [replacementChar, 'A'] ∧
    from_utf8_lossy [0x68, 0x69] = "hi" :=
  ⟨rfl, rfl, rfl, rfl⟩

/-- C8: notification delivery is fire-and-forget: two runs of the relay
under different delivery oracles produce the same logs, the same final
state, and the same emissions up to the discarded delivery flag; and the
per-event transition (keep listening or end the loop) does not depend on
the delivery outcome. -/
theorem emit_fire_and_forget (d₁ d₂ : Nat → Bool) (k₁ k₂ : Nat)
    (evs : List CommandEvent) :
    (relayRun d₁ k₁ evs).logs = (relayRun d₂ k₂ evs).logs ∧
    (relayRun d₁ k₁ evs).final = (relayRun d₂ k₂ evs).final ∧
    (relayRun d₁ k₁ evs).emits.map EmitAttempt.strip =
      (relayRun d₂ k₂ evs).emits.map EmitAttempt.strip ∧
    (∀ b₁ b₂ e, (relayStep b₁ e).isListen = (relayStep b₂ e).isListen) := by
  have hstep : ∀ b₁ b₂ e, (relayStep b₁ e).isListen = (relayStep b₂ e).isListen := by
    intro b₁ b₂ e; cases e <;> rfl
  induction evs generalizing k₁ k₂ with
  | nil => exact ⟨rfl, rfl, rfl, hstep⟩
  | cons e rest ih =>
    cases e with
    | Stdout line =>
      obtain ⟨ih1, ih2, ih3, -⟩ := ih k₁ k₂
      exact ⟨by simp [relayRun_stdout, ih1], by simp [relayRun_stdout, ih2],
        by simp [relayRun_stdout, ih3], hstep⟩
    | Stderr line =>
      obtain ⟨ih1, ih2, ih3, -⟩ := ih k₁ k₂
      exact ⟨by simp [relayRun_stderr, ih1], by simp [relayRun_stderr, ih2],
        by simp [relayRun_stderr, ih3], hstep⟩
    | Error err =>
      obtain ⟨ih1, ih2, ih3, -⟩ := ih (k₁ + 1) (k₂ + 1)
      exact ⟨by simp [relayRun_error, ih1], by simp [relayRun_error, ih2],
        by simp [relayRun_error, ih3, EmitAttempt.strip], hstep⟩
    | Terminated status =>
      exact ⟨by simp [relayRun_term], by simp [relayRun_term],
        by simp [relayRun_term, EmitAttempt.strip], hstep⟩
    | Other =>
      obtain ⟨ih1, ih2, ih3, -⟩ := ih k₁ k₂
      exact ⟨by simp [relayRun_other, ih1], by simp [relayRun_other, ih2],
        by simp [relayRun_other, ih3], hstep⟩

/-- C9: a relay task completing does not clear the stored handle: in any
reachable world with a handle, after the relay-completion operation the
handle is still present, every start_backend call still returns the
"Backend already running" success and spawns nothing, and only stop_backend
removes the stale handle. -/
theorem stale_handle_requires_stop (w : SupervisorWorld) (h : Reachable w) (id : Nat)
    (hid : w.state.process = some id) :
    (applyOp w SysOp.relayDone).state.process = some id ∧
    (∀ sc sp, start_backend sc sp (applyOp w SysOp.relayDone) =
      (Except.ok "Backend already running", applyOp w SysOp.relayDone)) ∧
    ((stop_backend (applyOp w SysOp.relayDone)).2).state.process = none := by
  obtain ⟨hp, -, -⟩ := reachable_supInv w h
  refine ⟨hid, ?_, ?_⟩
  · intro sc sp
    simp [applyOp, start_backend, hp, hid]
  · simp [applyOp, stop_backend, hp, hid]

/-- Witness for C9 at the world reached by one successful start. -/
theorem stale_handle_requires_stop_witness :
    (applyOp ⟨⟨some 0⟩, false, 1, [0]⟩ SysOp.relayDone).state.process = some 0 ∧
    start_backend SidecarOutcome.ok SpawnOutcome.ok
        (applyOp ⟨⟨some 0⟩, false, 1, [0]⟩ SysOp.relayDone) =
      (Except.ok "Backend already running",
       applyOp ⟨⟨some 0⟩, false, 1, [0]⟩ SysOp.relayDone) ∧
    ((stop_backend (applyOp ⟨⟨some 0⟩, false, 1, [0]⟩ SysOp.relayDone)).2).state.process =
      none := by
  have h := stale_handle_requires_stop ⟨⟨some 0⟩, false, 1, [0]⟩
    ⟨[SysOp.start SidecarOutcome.ok SpawnOutcome.ok], rfl⟩ 0 rfl
  exact ⟨h.1, h.2.1 SidecarOutcome.ok SpawnOutcome.ok, h.2.2⟩

/-- C10: an event hit by the catch-all arm of the relay loop changes
nothing: no log, no emission, the relay keeps listening and the run
continues exactly as if the event had not occurred. -/
theorem unknown_event_ignored (b : Bool) (d : Nat → Bool) (k : Nat)
    (rest : List CommandEvent) :
    relayStep b CommandEvent.Other = StepResult.listen [] [] ∧
    relayRun d k (CommandEvent.Other :: rest) = relayRun d k rest := ⟨rfl, rfl⟩
